import Mathlib

/-!
Verification of the `pootlesastropi` angle library (`astroangles.py`,
`stellarGeometry.py`) against its specification.

Python floats are modelled by exact real numbers `ℝ`; string parsing works
over exact rationals `ℚ` (so concrete string facts are decidable) and is
cast into `ℝ` where the stored angle values live.  Python exceptions are
modelled by `Except PyErr`.
-/

open Real

/-- The Python exceptions the modelled code can raise. -/
inductive PyErr : Type
  | valueError
  | zeroDivision
  | keyError
  | typeError
  | nameError
  deriving DecidableEq, Repr

instance {ε α : Type} [DecidableEq ε] [DecidableEq α] : DecidableEq (Except ε α) := fun a b =>
  match a, b with
  | .error e1, .error e2 =>
      if h : e1 = e2 then .isTrue (by rw [h]) else .isFalse (by simp [h])
  | .ok v1, .ok v2 =>
      if h : v1 = v2 then .isTrue (by rw [h]) else .isFalse (by simp [h])
  | .error _, .ok _ => .isFalse (by simp)
  | .ok _, .error _ => .isFalse (by simp)

/-- Python float `a % b` in exact arithmetic: the remainder taking the sign
of the divisor, `a - b * ⌊a / b⌋`. -/
noncomputable def fmod (a b : ℝ) : ℝ := a - b * ⌊a / b⌋

lemma fmod_eq_mul_fract {b : ℝ} (hb : b ≠ 0) (a : ℝ) :
    fmod a b = b * Int.fract (a / b) := by
  unfold fmod Int.fract
  field_simp

lemma fmod_nonneg {b : ℝ} (hb : 0 < b) (a : ℝ) : 0 ≤ fmod a b := by
  rw [fmod_eq_mul_fract hb.ne']
  exact mul_nonneg hb.le (Int.fract_nonneg _)

lemma fmod_lt {b : ℝ} (hb : 0 < b) (a : ℝ) : fmod a b < b := by
  rw [fmod_eq_mul_fract hb.ne']
  calc b * Int.fract (a / b) < b * 1 :=
        (mul_lt_mul_left hb).mpr (Int.fract_lt_one _)
    _ = b := mul_one b

/-- Evaluate `fmod` once the enclosing multiple of the divisor is known. -/
lemma fmod_eval {a b : ℝ} (k : ℤ) (hb : 0 < b)
    (h1 : (k : ℝ) * b ≤ a) (h2 : a < ((k : ℝ) + 1) * b) :
    fmod a b = a - b * k := by
  unfold fmod
  have hfloor : ⌊a / b⌋ = k := by
    rw [Int.floor_eq_iff]
    constructor
    · exact (le_div_iff₀ hb).mpr (by linarith)
    · exact (div_lt_iff₀ hb).mpr (by linarith)
  rw [hfloor]

lemma fmod_eq_self {a b : ℝ} (hb : 0 < b) (h0 : 0 ≤ a) (h1 : a < b) :
    fmod a b = a := by
  have := fmod_eval 0 hb (by simpa using h0) (by simpa using h1)
  simpa using this

/-- The nine angle kinds: `latVal`, `lonVal`, `altVal`, `azVal`, `raVal`,
`decVal`, `motorVal`, `hourVal` and the free-rotation `moveVal`. -/
inductive Kind : Type
  | lat | lon | alt | az | ra | dec | motor | hour | move
  deriving DecidableEq, Repr

/-- The per-class `valConstraints` tables of `astroangles.py`: each kind maps
a unit tag (`'d'`, `'r'`, `'h'`) to its `(offset, cyclic)` pair.  `raVal`,
`motorVal`, `hourVal` and `moveVal` inherit the `degradval` base table. -/
noncomputable def valConstraints (k : Kind) (u : Char) : ℝ × ℝ :=
  match k with
  | .lat | .alt | .dec =>
      if u = 'd' then (90, 180) else if u = 'r' then (π / 2, π) else (6, 12)
  | .lon | .az =>
      if u = 'd' then (180, 360) else if u = 'r' then (π, 2 * π) else (12, 24)
  | _ =>
      if u = 'd' then (0, 360) else if u = 'r' then (0, 2 * π) else (0, 24)

/-- The `_constrain` method: the wrap-to-interval rule
`(newval + offset) % cyclic - offset` for every kind except `moveVal`,
which overrides it with the signed-magnitude rule
`cval = abs(newval) % max; -cval if newval < 0 else cval`. -/
noncomputable def constrainK (k : Kind) (u : Char) (v : ℝ) : ℝ :=
  match k with
  | .move =>
      let m := if u = 'd' then (360 : ℝ) else if u = 'r' then 2 * π else 24
      let cval := fmod |v| m
      if v < 0 then -cval else cval
  | _ =>
      let oc := valConstraints k u
      fmod (v + oc.1) oc.2 - oc.1

/-- The value stored by the `deg` setter for a numeric input. -/
noncomputable def setDegNum (k : Kind) (v : ℝ) : ℝ := constrainK k 'd' v

/-- The value stored (in `_rval`) by the `rad` setter for a numeric input. -/
noncomputable def setRadNum (k : Kind) (v : ℝ) : ℝ := constrainK k 'r' v

/-- The degree value stored (in `_dval`) by the `hour` setter for a numeric
input: the hour-constrained value times 15. -/
noncomputable def setHourNum (k : Kind) (v : ℝ) : ℝ := 15 * constrainK k 'h' v

/-- Python `math.degrees` applied to a stored radian value. -/
noncomputable def radToDeg (r : ℝ) : ℝ := r * (180 / π)

/-- The stored degree value after `degradval.__init__(v, vas)` with a numeric
`v`: `_cleanval` constrains once, then `set` routes through the `rad` or
`deg` setter (hours are forwarded as `cval * 15` to the `deg` setter), which
constrains again. -/
noncomputable def initNumeric (k : Kind) (v : ℝ) (vas : Char) : ℝ :=
  let u := if vas = 'd' ∨ vas = 'r' ∨ vas = 'h' then vas else 'd'
  let cval := constrainK k u v
  if u = 'r' then radToDeg (constrainK k 'r' cval)
  else if u = 'h' then constrainK k 'd' (cval * 15)
  else constrainK k 'd' cval

/-- Membership in a kind's half-open degree interval
`[-offset, cyclic - offset)`. -/
noncomputable def inDegRange (k : Kind) (x : ℝ) : Prop :=
  -(valConstraints k 'd').1 ≤ x ∧ x < (valConstraints k 'd').2 - (valConstraints k 'd').1

/-! ## The string parsing pipeline of `degradval._cleanval`

Python strings are modelled as `List Char` (every separator, marker and
trailing-sign string involved is a single character), so the whole pipeline
is computable and concrete facts are decidable.  The parsed numeric value
is an exact rational. -/

/-- Python `s.split(sep)` for a one-character separator, keeping empty
pieces, so a list of `n` occurrences of `sep` yields `n + 1` pieces. -/
def splitOnChar (sep : Char) : List Char → List (List Char)
  | [] => [[]]
  | c :: rest =>
      if c = sep then [] :: splitOnChar sep rest
      else
        match splitOnChar sep rest with
        | h :: t => (c :: h) :: t
        | [] => [[c]]

/-- Python `s.strip()`: remove leading and trailing whitespace. -/
def stripChars (l : List Char) : List Char :=
  ((l.dropWhile Char.isWhitespace).reverse.dropWhile Char.isWhitespace).reverse

/-- Value of a digit string, most significant digit first. -/
def digitsVal (l : List Char) : ℕ :=
  l.foldl (fun a c => a * 10 + (c.toNat - 48)) 0

/-- Python `int(s)`: optional surrounding whitespace, optional sign, then a
nonempty run of digits. -/
def pyInt (s : List Char) : Option ℤ :=
  let t := stripChars s
  let (sg, u) : ℤ × List Char :=
    match t with
    | '-' :: rest => (-1, rest)
    | '+' :: rest => (1, rest)
    | _ => (1, t)
  if u ≠ [] ∧ u.all Char.isDigit then some (sg * digitsVal u) else none

/-- Python `float(s)` restricted to plain decimal notation: optional
surrounding whitespace, optional sign, digits with at most one decimal
point and at least one digit overall. -/
def pyFloat (s : List Char) : Option ℚ :=
  let t := stripChars s
  let (sg, u) : ℚ × List Char :=
    match t with
    | '-' :: rest => (-1, rest)
    | '+' :: rest => (1, rest)
    | _ => (1, t)
  match splitOnChar '.' u with
  | [a] =>
      if a ≠ [] ∧ a.all Char.isDigit then some (sg * mkRat (digitsVal a) 1) else none
  | [a, b] =>
      if (a ≠ [] ∨ b ≠ []) ∧ a.all Char.isDigit ∧ b.all Char.isDigit then
        some (sg * (mkRat (digitsVal a) 1 + mkRat (digitsVal b) 1 / mkRat (10 ^ b.length) 1))
      else none
  | _ => none

/-- Rejoin the two pieces around a removed unit-marker character,
`usplit[0] + usplit[1]`. -/
def joinParts : List (List Char) → List Char
  | [a, b] => a ++ b
  | l => l.flatten

/-- The unit-marker scan at the top of `_cleanval`: look for exactly one
`'d'`, else exactly one `'r'`, else exactly one `'h'`; delete a found marker
and resolve the unit, otherwise keep the string and fall back to the
caller-supplied default unit (itself defaulting to `'d'`). -/
def splitUnit (s : List Char) (units : Char) : List Char × Char :=
  let u0 := if units = 'd' ∨ units = 'r' ∨ units = 'h' then units else 'd'
  let ds := splitOnChar 'd' s
  if ds.length = 2 then (joinParts ds, 'd')
  else
    let rs := splitOnChar 'r' s
    if rs.length = 2 then (joinParts rs, 'r')
    else
      let hs := splitOnChar 'h' s
      if hs.length = 2 then (joinParts hs, 'h')
      else (s, u0)

/-- The trailing-sign scan: the first `(tr, tv)` entry whose (one-character)
string `tr` is a suffix of `tstr` fixes the sign and is removed; otherwise
the sign is `+1`. -/
def findTrail : List (Char × ℚ) → List Char → ℚ × List Char
  | [], tstr => (1, tstr)
  | (tr, tv) :: rest, tstr =>
      if tstr.getLast? = some tr then (tv, tstr.dropLast)
      else findTrail rest tstr

/-- The per-class `trails` tables: `latVal` recognises `n/N/s/S`, `lonVal`
`e/E/w/W`; every other kind inherits the empty table. -/
def trailsOf (k : Kind) : List (Char × ℚ) :=
  match k with
  | .lat => [('n', 1), ('N', 1), ('s', -1), ('S', -1)]
  | .lon => [('e', 1), ('E', 1), ('w', -1), ('W', -1)]
  | _ => []

/-- Consumption of one leading `+` or `-` after the trailing-sign scan: a
`-` flips `endsign`. -/
def applySign (endsign : ℚ) (tstr : List Char) : ℚ × List Char :=
  match tstr with
  | '+' :: rest => (endsign, rest)
  | '-' :: rest => (-endsign, rest)
  | _ => (endsign, tstr)

/-- The numeric tail of `_cleanval`'s string branch: a string with exactly
two `:` separators parses as `(int(c0) + int(c1)/60 + float(c2)/3600)`,
anything else as a single float, times the sign; a failing `int`/`float`
raises `ValueError`. -/
def parseNumPart (endsign : ℚ) (tstr2 : List Char) : Except PyErr ℚ :=
  match splitOnChar ':' tstr2 with
  | [c0, c1, c2] =>
      match pyInt c0, pyInt c1, pyFloat c2 with
      | some i0, some i1, some f2 =>
          .ok ((mkRat i0 1 + mkRat i1 1 / 60 + f2 / 3600) * endsign)
      | _, _, _ => .error .valueError
  | _ =>
      match pyFloat tstr2 with
      | some f => .ok (f * endsign)
      | none => .error .valueError

/-- The string branch of `_cleanval` before the final `_constrain` call:
unit-marker scan, strip, trailing-sign scan, one leading `+`/`-`, then
either a `deg:min:sec` triple or a single float, times the sign.  Returns
the signed parsed value and the resolved unit, or the `ValueError` that
Python's `int`/`float` would raise. -/
def parseAngleString (trails : List (Char × ℚ)) (s : List Char) (units : Char) :
    Except PyErr (ℚ × Char) :=
  let su := splitUnit s units
  let ft := findTrail trails (stripChars su.1)
  let sg := applySign ft.1 ft.2
  match parseNumPart sg.1 sg.2 with
  | .error _ => .error .valueError
  | .ok q => .ok (q, su.2)

/-- The `_cleanval` method on a string input: parse, then `_constrain` in the resolved
unit. -/
noncomputable def cleanvalStr (k : Kind) (s : List Char) (units : Char) :
    Except PyErr (ℝ × Char) :=
  match parseAngleString (trailsOf k) s units with
  | .error e => .error e
  | .ok (q, u) => .ok (constrainK k u (q : ℝ), u)

/-- The stored degree value after `degradval.__init__(s, vas)` with a string
`s`: `_cleanval`, then `set` routes the value through the `rad` or `deg`
setter (hours forwarded as `cval * 15` to the `deg` setter), which
constrains a second time. -/
noncomputable def initStr (k : Kind) (s : List Char) (vas : Char) : Except PyErr ℝ :=
  match cleanvalStr k s vas with
  | .error e => .error e
  | .ok (cval, ctype) =>
      if ctype = 'r' then .ok (radToDeg (constrainK k 'r' cval))
      else if ctype = 'h' then .ok (constrainK k 'd' (cval * 15))
      else .ok (constrainK k 'd' cval)

/-! ## The multi-number (sexagesimal) branch of `degradval.__format__`

`__format__` decomposes `abs(sval)` with three `divmod` calls
(`divmod(a, b)` on floats is `(⌊a / b⌋, a - b * ⌊a / b⌋)` in exact
arithmetic) and renders the kind's default multi template. -/

/-- The `prim` of `divmod(abs(sval), 1)`, as the integer `int(prim)`. -/
noncomputable def primOf (v : ℝ) : ℤ := ⌊|v|⌋

/-- The `rest` of `divmod(abs(sval), 1)`. -/
noncomputable def restOf (v : ℝ) : ℝ := fmod |v| 1

/-- The `mins` of `divmod(rest, 1/60)`, as the integer `int(mins)`. -/
noncomputable def minsOf (v : ℝ) : ℤ := ⌊restOf v / (1 / 60)⌋

/-- The second `rest`, from `divmod(rest, 1/60)`. -/
noncomputable def rest2Of (v : ℝ) : ℝ := fmod (restOf v) (1 / 60)

/-- The `secs` of `divmod(rest, 1/3600)`, as the integer `int(secs)`. -/
noncomputable def secsOf (v : ℝ) : ℤ := ⌊rest2Of v / (1 / 3600)⌋

/-- The `fracs` of `divmod(rest, 1/3600)`. -/
noncomputable def fracsOf (v : ℝ) : ℝ := fmod (rest2Of v) (1 / 3600)

/-- Python `round(x)`: round to the nearest integer, ties to the even
integer. -/
noncomputable def pyRound (x : ℝ) : ℤ :=
  if x - ⌊x⌋ < 1 / 2 then ⌊x⌋
  else if 1 / 2 < x - ⌊x⌋ then ⌊x⌋ + 1
  else if 2 ∣ ⌊x⌋ then ⌊x⌋ else ⌊x⌋ + 1

/-- The `hund` field: `round(fracs * 360000)`. -/
noncomputable def hundOf (v : ℝ) : ℤ := pyRound (fracsOf v * 360000)

/-- Python `'%d'` rendering of a natural number, via explicit fuel so the
definition reduces in the kernel. -/
def natDigitsAux : ℕ → ℕ → List Char → List Char
  | 0, _, acc => acc
  | fuel + 1, n, acc =>
      let d := Char.ofNat (48 + n % 10)
      if n < 10 then d :: acc else natDigitsAux fuel (n / 10) (d :: acc)

def natChars (n : ℕ) : List Char := natDigitsAux (n + 1) n []

/-- Python `'{:d}'.format(z)`. -/
def intChars (z : ℤ) : List Char :=
  if z < 0 then '-' :: natChars z.natAbs else natChars z.natAbs

/-- Python `'{:02d}'.format(z)`: zero-pad to width two. -/
def pad02 (z : ℤ) : List Char :=
  let s := intChars z
  if s.length < 2 then '0' :: s else s

/-- The sign selector `posv = 1 if sval >= 0 else -1`. -/
noncomputable def posvOf (v : ℝ) : ℝ := if 0 ≤ v then 1 else -1

/-- The `latVal.trailsign` function: `'N'` for a non-negative argument, else `'S'`. -/
noncomputable def latTrailsign (x : ℝ) : List Char :=
  if 0 ≤ x then ['N'] else ['S']

/-- The multi-number format branch for a `latVal`, with `src = 'd'` and the
class defaults `defaultLabel = 'lat '` and
`defaultMultiFormat = lab, abs, ':', min 02d, ':', sec 02d, '.', hund 02d,
' ', schar`. -/
noncomputable def latFormatMulti (v : ℝ) : List Char :=
  "lat ".toList ++ intChars (primOf v) ++ [':'] ++ pad02 (minsOf v) ++ [':']
    ++ pad02 (secsOf v) ++ ['.'] ++ pad02 (hundOf v) ++ [' ']
    ++ latTrailsign (posvOf v)

/-! ## `stellarGeometry.mapCoords` and the `localEquatorial` derivations -/

/-- The intermediate `xt = asin(sin(x)*sin(y) + cos(x)*cos(y)*cos(z))`. -/
noncomputable def xtOf (x y z : ℝ) : ℝ :=
  arcsin (sin x * sin y + cos x * cos y * cos z)

/-- The denominator `cos(y) * cos(xt)` of the `acos` argument. -/
noncomputable def denOf (x y z : ℝ) : ℝ := cos y * cos (xtOf x y z)

/-- The fallback numerator helper `cx = sin(x) - sin(y) * sin(xt)`, also the numerator of the
`acos` argument. -/
noncomputable def cxOf (x y z : ℝ) : ℝ := sin x - sin y * sin (xtOf x y z)

/-- The argument handed to `acos`. -/
noncomputable def acosArg (x y z : ℝ) : ℝ := cxOf x y z / denOf x y z

/-- The fallback value `cy = -cos(x) * cos(y) * sin(z)`. -/
noncomputable def cyOf (x y z : ℝ) : ℝ := -cos x * cos y * sin z

/-- The function `stellarGeometry.mapCoords(x, y, z)`: the primary `acos` formula inside
`try`, reflecting `yt` when `sin(z) > 0`; Python's `acos` raises the caught
`ValueError` exactly when its argument leaves `[-1, 1]`, upon which the
`atan(cy/cx)` fallback runs (plus `pi` when `cx < 0`).  A division by an
exactly-zero denominator raises an uncaught `ZeroDivisionError`, modelled
as an `Except.error`. -/
noncomputable def mapCoords (x y z : ℝ) : Except PyErr (ℝ × ℝ) :=
  if denOf x y z = 0 then .error .zeroDivision
  else if -1 ≤ acosArg x y z ∧ acosArg x y z ≤ 1 then
    let yt := arccos (acosArg x y z)
    .ok (xtOf x y z, if 0 < sin z then 2 * π - yt else yt)
  else if cxOf x y z = 0 then .error .zeroDivision
  else
    let cz := arctan (cyOf x y z / cxOf x y z)
    .ok (xtOf x y z, if cxOf x y z < 0 then cz + π else cz)

/-- Construction of a `decVal` from another `decVal` (the
`type(self) == type(val)` branch of `_cleanval` copies the degree value,
then the `deg` setter constrains it again). -/
noncomputable def initFromSame (k : Kind) (d : ℝ) : ℝ :=
  constrainK k 'd' (constrainK k 'd' d)

/-- The method `localEquatorial.setupfromradec(inra, indec, insrtdeg)`: builds
`hourVal(insrtdeg - inra.deg, 'd')` and `decVal(indec)` — no call into
`mapCoords` occurs on this path.  Arguments are the source right-ascension
and declination degree values and the sidereal angle in degrees; the result
is the stored `(hour, dec)` degree pair. -/
noncomputable def setupfromradec (inra indec insrtdeg : ℝ) : ℝ × ℝ :=
  (initNumeric Kind.hour (insrtdeg - inra) 'd', initFromSame Kind.dec indec)

/-! ## The lazy degree/radian cache and its notifications

State of one `degradval`: the `_dval`/`_rval` caches.  Each getter/setter
result carries the number of `_notifyChange` and `_notifyAccess` calls it
performs. -/

structure AState : Type where
  dval : Option ℝ
  rval : Option ℝ

/-- The `deg` property getter: one access notification; a missing `_dval`
is filled from `_rval` by `math.degrees`.  Returns the value read and the
state after the lazy fill. -/
noncomputable def degGet (s : AState) : Option ℝ × AState :=
  match s.dval with
  | some d => (some d, s)
  | none =>
      match s.rval with
      | some r => (some (radToDeg r), ⟨some (radToDeg r), s.rval⟩)
      | none => (none, s)

/-- Python `math.radians`. -/
noncomputable def degToRad (d : ℝ) : ℝ := d * (π / 180)

/-- The `rad` property getter, symmetric to `degGet`. -/
noncomputable def radGet (s : AState) : Option ℝ × AState :=
  match s.rval with
  | some r => (some r, s)
  | none =>
      match s.dval with
      | some d => (some (degToRad d), ⟨s.dval, some (degToRad d)⟩)
      | none => (none, s)

/-- Result of a setter: the new state and the number of change and access
notifications fired. -/
structure SetResult : Type where
  state : AState
  changes : ℕ
  accesses : ℕ

/-- The `deg` setter on a numeric value: constrain, then compare against
the `self.deg` property (one access notification); on inequality store and
fire `_notifyChange`, otherwise fire `_notifyAccess` once more. -/
noncomputable def degSetNumS (k : Kind) (s : AState) (v : ℝ) : SetResult :=
  let newval := constrainK k 'd' v
  let g := degGet s
  if some newval ≠ g.1 then ⟨⟨some newval, none⟩, 1, 1⟩
  else ⟨g.2, 0, 2⟩

/-- The `rad` setter on a numeric value, symmetric to `degSetNumS`. -/
noncomputable def radSetNumS (k : Kind) (s : AState) (v : ℝ) : SetResult :=
  let newval := constrainK k 'r' v
  let g := radGet s
  if some newval ≠ g.1 then ⟨⟨none, some newval⟩, 1, 1⟩
  else ⟨g.2, 0, 2⟩

/-- The `hour` setter on a numeric value: constrain in hours, scale by 15,
then compare against the raw `_dval` cache — not the `deg` property — so
no access notification happens on the change branch. -/
noncomputable def hourSetNumS (k : Kind) (s : AState) (v : ℝ) : SetResult :=
  let newval := 15 * constrainK k 'h' v
  if s.dval ≠ some newval then ⟨⟨some newval, none⟩, 1, 0⟩
  else ⟨s, 0, 1⟩

/-- The `deg` setter on a string: `_cleanval(dval, 'd')`, then
`raise ValueError` when the resolved unit `dtype` differs from `'d'`,
otherwise the same compare-and-store as the numeric path. -/
noncomputable def degSetStr (k : Kind) (s : AState) (str : List Char) :
    Except PyErr SetResult :=
  match cleanvalStr k str 'd' with
  | .error e => .error e
  | .ok (newval, dtype) =>
      if dtype ≠ 'd' then .error .valueError
      else
        let g := degGet s
        if some newval ≠ g.1 then .ok ⟨⟨some newval, none⟩, 1, 1⟩
        else .ok ⟨g.2, 0, 2⟩

/-- The `rad` setter on a string, expecting resolved unit `'r'`. -/
noncomputable def radSetStr (k : Kind) (s : AState) (str : List Char) :
    Except PyErr SetResult :=
  match cleanvalStr k str 'r' with
  | .error e => .error e
  | .ok (newval, dtype) =>
      if dtype ≠ 'r' then .error .valueError
      else
        let g := radGet s
        if some newval ≠ g.1 then .ok ⟨⟨none, some newval⟩, 1, 1⟩
        else .ok ⟨g.2, 0, 2⟩

/-- The `hour` setter on a string, expecting resolved unit `'h'`. -/
noncomputable def hourSetStr (k : Kind) (s : AState) (str : List Char) :
    Except PyErr SetResult :=
  match cleanvalStr k str 'h' with
  | .error e => .error e
  | .ok (cval, dtype) =>
      if dtype ≠ 'h' then .error .valueError
      else
        let newval := 15 * cval
        if s.dval ≠ some newval then .ok ⟨⟨some newval, none⟩, 1, 0⟩
        else .ok ⟨s, 0, 1⟩

/-! ## `twoCoords.__init__`

The keyword processing leaves each of the two components either present or
absent; an optional `sources` tuple is handed to the subclass `setupfrom`,
which either raises, or returns with the components possibly rewritten
(the base class `setupfrom` is `pass`).  Finally the constructor raises if
either component is still absent — through the reference to the undefined
name `_v2from` on line 43, so the error actually raised there is a
`NameError` rather than the intended `TypeError`. -/

/-- Component state after the optional `setupfrom` call. -/
def postSetupState {σ : Type} (v1 v2 : Option ℝ) (sources : Option σ)
    (setup : σ → Option ℝ × Option ℝ → Except PyErr (Option ℝ × Option ℝ)) :
    Except PyErr (Option ℝ × Option ℝ) :=
  match sources with
  | none => .ok (v1, v2)
  | some s => setup s (v1, v2)

/-- The constructor `twoCoords.__init__`: succeeds only when both components are present
after keyword processing and any derivation. -/
def twoCoordsInit {σ : Type} (v1 v2 : Option ℝ) (sources : Option σ)
    (setup : σ → Option ℝ × Option ℝ → Except PyErr (Option ℝ × Option ℝ)) :
    Except PyErr (ℝ × ℝ) :=
  match postSetupState v1 v2 sources setup with
  | .error e => .error e
  | .ok (some a, some b) => .ok (a, b)
  | .ok _ => .error .nameError

/-! ## Helper lemmas -/

lemma constrain_mem {o p : ℝ} (hp : 0 < p) (v : ℝ) :
    -o ≤ fmod (v + o) p - o ∧ fmod (v + o) p - o < p - o := by
  constructor
  · have := fmod_nonneg hp (v + o)
    linarith
  · have := fmod_lt hp (v + o)
    linarith

lemma constrainK_eq_wrap (k : Kind) (hk : k ≠ Kind.move) (u : Char) (v : ℝ) :
    constrainK k u v
      = fmod (v + (valConstraints k u).1) (valConstraints k u).2
          - (valConstraints k u).1 := by
  cases k <;> first | rfl | exact absurd rfl hk

lemma valConstraints_per_pos (k : Kind) (u : Char) : 0 < (valConstraints k u).2 := by
  have hpi := Real.pi_pos
  cases k <;> unfold valConstraints <;> split_ifs <;> dsimp only <;> linarith

lemma hour_table (k : Kind) (hk : k ≠ Kind.move) :
    (valConstraints k 'd').1 = 15 * (valConstraints k 'h').1
  ∧ (valConstraints k 'd').2 = 15 * (valConstraints k 'h').2 := by
  cases k with
  | move => exact absurd rfl hk
  | lat => exact ⟨by show (90 : ℝ) = 15 * 6; norm_num, by show (180 : ℝ) = 15 * 12; norm_num⟩
  | alt => exact ⟨by show (90 : ℝ) = 15 * 6; norm_num, by show (180 : ℝ) = 15 * 12; norm_num⟩
  | dec => exact ⟨by show (90 : ℝ) = 15 * 6; norm_num, by show (180 : ℝ) = 15 * 12; norm_num⟩
  | lon => exact ⟨by show (180 : ℝ) = 15 * 12; norm_num, by show (360 : ℝ) = 15 * 24; norm_num⟩
  | az => exact ⟨by show (180 : ℝ) = 15 * 12; norm_num, by show (360 : ℝ) = 15 * 24; norm_num⟩
  | ra => exact ⟨by show (0 : ℝ) = 15 * 0; norm_num, by show (360 : ℝ) = 15 * 24; norm_num⟩
  | motor => exact ⟨by show (0 : ℝ) = 15 * 0; norm_num, by show (360 : ℝ) = 15 * 24; norm_num⟩
  | hour => exact ⟨by show (0 : ℝ) = 15 * 0; norm_num, by show (360 : ℝ) = 15 * 24; norm_num⟩

lemma rad_table (k : Kind) (hk : k ≠ Kind.move) :
    (valConstraints k 'r').1 = (valConstraints k 'd').1 * (π / 180)
  ∧ (valConstraints k 'r').2 = (valConstraints k 'd').2 * (π / 180) := by
  cases k with
  | move => exact absurd rfl hk
  | lat => exact ⟨by show π / 2 = 90 * (π / 180); ring, by show π = 180 * (π / 180); ring⟩
  | alt => exact ⟨by show π / 2 = 90 * (π / 180); ring, by show π = 180 * (π / 180); ring⟩
  | dec => exact ⟨by show π / 2 = 90 * (π / 180); ring, by show π = 180 * (π / 180); ring⟩
  | lon => exact ⟨by show π = 180 * (π / 180); ring, by show 2 * π = 360 * (π / 180); ring⟩
  | az => exact ⟨by show π = 180 * (π / 180); ring, by show 2 * π = 360 * (π / 180); ring⟩
  | ra => exact ⟨by show (0 : ℝ) = 0 * (π / 180); ring, by show 2 * π = 360 * (π / 180); ring⟩
  | motor => exact ⟨by show (0 : ℝ) = 0 * (π / 180); ring, by show 2 * π = 360 * (π / 180); ring⟩
  | hour => exact ⟨by show (0 : ℝ) = 0 * (π / 180); ring, by show 2 * π = 360 * (π / 180); ring⟩

lemma radToDeg_mem {od pd x : ℝ} (h1 : -(od * (π / 180)) ≤ x)
    (h2 : x < pd * (π / 180) - od * (π / 180)) :
    -od ≤ radToDeg x ∧ radToDeg x < pd - od := by
  have hpi := Real.pi_pos
  have hc : (0 : ℝ) < 180 / π := by positivity
  have e1 : -(od * (π / 180)) * (180 / π) = -od := by
    field_simp
    ring
  have e2 : (pd * (π / 180) - od * (π / 180)) * (180 / π) = pd - od := by
    field_simp
    ring
  unfold radToDeg
  constructor
  · have := mul_le_mul_of_nonneg_right h1 hc.le
    rw [e1] at this
    exact this
  · have := mul_lt_mul_of_pos_right h2 hc
    rw [e2] at this
    exact this

lemma constrainK_idem (k : Kind) (hk : k ≠ Kind.move) (u : Char) (v : ℝ) :
    constrainK k u (constrainK k u v) = constrainK k u v := by
  have hp := valConstraints_per_pos k u
  rw [constrainK_eq_wrap k hk u, constrainK_eq_wrap k hk u v]
  have hmem := constrain_mem (o := (valConstraints k u).1) hp v
  have h0 : 0 ≤ fmod (v + (valConstraints k u).1) (valConstraints k u).2
      - (valConstraints k u).1 + (valConstraints k u).1 := by linarith [hmem.1]
  have h1 : fmod (v + (valConstraints k u).1) (valConstraints k u).2
      - (valConstraints k u).1 + (valConstraints k u).1 < (valConstraints k u).2 := by
    linarith [hmem.2]
  rw [fmod_eq_self hp h0 h1]
  ring

lemma constrainK_hour_d (x : ℝ) : constrainK Kind.hour 'd' x = fmod x 360 := by
  unfold constrainK valConstraints
  norm_num

lemma constrainK_dec_d (x : ℝ) : constrainK Kind.dec 'd' x = fmod (x + 90) 180 - 90 := by
  unfold constrainK valConstraints
  norm_num

lemma constrainK_lat_d (x : ℝ) : constrainK Kind.lat 'd' x = fmod (x + 90) 180 - 90 := rfl

lemma constrainK_lon_d (x : ℝ) : constrainK Kind.lon 'd' x = fmod (x + 180) 360 - 180 := rfl

lemma constrainK_move_d (v : ℝ) :
    constrainK Kind.move 'd' v = if v < 0 then -(fmod |v| 360) else fmod |v| 360 := rfl

lemma initNumeric_lat_95 : initNumeric Kind.lat 95 'd' = -85 := by
  have i1 : constrainK Kind.lat 'd' (95 : ℝ) = -85 := by
    rw [constrainK_lat_d, fmod_eval 1 (by norm_num) (by norm_num) (by norm_num)]
    norm_num
  have i2 : constrainK Kind.lat 'd' ((-85) : ℝ) = -85 := by
    rw [constrainK_lat_d, fmod_eval 0 (by norm_num) (by norm_num) (by norm_num)]
    norm_num
  show constrainK Kind.lat 'd' (constrainK Kind.lat 'd' 95) = -85
  rw [i1, i2]

lemma initNumeric_lon_185 : initNumeric Kind.lon 185 'd' = -175 := by
  have i1 : constrainK Kind.lon 'd' (185 : ℝ) = -175 := by
    rw [constrainK_lon_d, fmod_eval 1 (by norm_num) (by norm_num) (by norm_num)]
    norm_num
  have i2 : constrainK Kind.lon 'd' ((-175) : ℝ) = -175 := by
    rw [constrainK_lon_d, fmod_eval 0 (by norm_num) (by norm_num) (by norm_num)]
    norm_num
  show constrainK Kind.lon 'd' (constrainK Kind.lon 'd' 185) = -175
  rw [i1, i2]

/-- Claim C2: for every kind except the free-rotation `moveVal`, a numeric
value written through the constructor or the degree/radian/hour setters is
stored as `((value + offset) mod period) - offset` for the kind's per-unit
`(offset, period)` pair, so the stored degree value lies in the kind's
half-open interval `[-offset, period - offset)`; in particular
`latVal(95).deg == -85` and `lonVal(185).deg == -175`. -/
theorem c2_wrap_normalization (k : Kind) (hk : k ≠ Kind.move) (v : ℝ) :
    (setDegNum k v
        = fmod (v + (valConstraints k 'd').1) (valConstraints k 'd').2
            - (valConstraints k 'd').1
      ∧ inDegRange k (setDegNum k v))
  ∧ (setRadNum k v
        = fmod (v + (valConstraints k 'r').1) (valConstraints k 'r').2
            - (valConstraints k 'r').1
      ∧ inDegRange k (radToDeg (setRadNum k v)))
  ∧ (setHourNum k v
        = 15 * (fmod (v + (valConstraints k 'h').1) (valConstraints k 'h').2
            - (valConstraints k 'h').1)
      ∧ inDegRange k (setHourNum k v))
  ∧ initNumeric Kind.lat 95 'd' = -85 ∧ initNumeric Kind.lon 185 'd' = -175 := by
  have pd := valConstraints_per_pos k 'd'
  have pr := valConstraints_per_pos k 'r'
  have ph := valConstraints_per_pos k 'h'
  have hd := constrainK_eq_wrap k hk 'd' v
  have hr := constrainK_eq_wrap k hk 'r' v
  have hh := constrainK_eq_wrap k hk 'h' v
  have md := constrain_mem (o := (valConstraints k 'd').1) pd v
  have mr := constrain_mem (o := (valConstraints k 'r').1) pr v
  have mh := constrain_mem (o := (valConstraints k 'h').1) ph v
  refine ⟨⟨hd, ?_⟩, ⟨hr, ?_⟩, ⟨by unfold setHourNum; rw [hh], ?_⟩,
    initNumeric_lat_95, initNumeric_lon_185⟩
  · unfold inDegRange setDegNum
    rw [hd]
    exact md
  · have bx : -(valConstraints k 'r').1 ≤ setRadNum k v
        ∧ setRadNum k v < (valConstraints k 'r').2 - (valConstraints k 'r').1 := by
      unfold setRadNum
      rw [hr]
      exact mr
    have t := rad_table k hk
    rw [t.1, t.2] at bx
    exact radToDeg_mem bx.1 bx.2
  · have bx : -(valConstraints k 'h').1 ≤ constrainK k 'h' v
        ∧ constrainK k 'h' v < (valConstraints k 'h').2 - (valConstraints k 'h').1 := by
      rw [hh]
      exact mh
    have t := hour_table k hk
    unfold inDegRange setHourNum
    constructor
    · rw [t.1]
      linarith [bx.1]
    · rw [t.1, t.2]
      linarith [bx.2]

theorem c2_wrap_normalization_witness :
    Kind.lat ≠ Kind.move
  ∧ initNumeric Kind.lat 95 'd' = -85
  ∧ initNumeric Kind.lon 185 'd' = -175
  ∧ inDegRange Kind.lat (setDegNum Kind.lat 95) := by
  have h := c2_wrap_normalization Kind.lat (by decide) 95
  exact ⟨by decide, h.2.2.2.1, h.2.2.2.2, h.1.2⟩

/-- Claim C3: a value written to the free-rotation `moveVal` is stored as
`+(abs(v) mod period)` when `v` is non-negative and `-(abs(v) mod period)`
otherwise (period 360 in degrees), preserving the sign; in particular
`moveVal(-725).deg == -5` and `moveVal(725).deg == 5`. -/
theorem c3_move_signed_magnitude (v : ℝ) :
    (0 ≤ v → constrainK Kind.move 'd' v = fmod |v| 360)
  ∧ (v < 0 → constrainK Kind.move 'd' v = -(fmod |v| 360))
  ∧ initNumeric Kind.move (-725) 'd' = -5
  ∧ initNumeric Kind.move 725 'd' = 5 := by
  have f725 : fmod (725 : ℝ) 360 = 5 := by
    rw [fmod_eval 2 (by norm_num) (by norm_num) (by norm_num)]
    norm_num
  have f5 : fmod (5 : ℝ) 360 = 5 := fmod_eq_self (by norm_num) (by norm_num) (by norm_num)
  have a1 : constrainK Kind.move 'd' ((-725) : ℝ) = -5 := by
    rw [constrainK_move_d, if_pos (by norm_num : ((-725) : ℝ) < 0),
      show |((-725) : ℝ)| = 725 by norm_num, f725]
  have a2 : constrainK Kind.move 'd' ((-5) : ℝ) = -5 := by
    rw [constrainK_move_d, if_pos (by norm_num : ((-5) : ℝ) < 0),
      show |((-5) : ℝ)| = 5 by norm_num, f5]
  have b1 : constrainK Kind.move 'd' ((725) : ℝ) = 5 := by
    rw [constrainK_move_d, if_neg (by norm_num : ¬ ((725) : ℝ) < 0),
      show |((725) : ℝ)| = 725 by norm_num, f725]
  have b2 : constrainK Kind.move 'd' ((5) : ℝ) = 5 := by
    rw [constrainK_move_d, if_neg (by norm_num : ¬ ((5) : ℝ) < 0),
      show |((5) : ℝ)| = 5 by norm_num, f5]
  refine ⟨?_, ?_, ?_, ?_⟩
  · intro h
    rw [constrainK_move_d, if_neg (not_lt.mpr h)]
  · intro h
    rw [constrainK_move_d, if_pos h]
  · show constrainK Kind.move 'd' (constrainK Kind.move 'd' (-725)) = -5
    rw [a1, a2]
  · show constrainK Kind.move 'd' (constrainK Kind.move 'd' 725) = 5
    rw [b1, b2]

theorem c3_move_signed_magnitude_witness :
    ((-725 : ℝ) < 0 ∧ constrainK Kind.move 'd' (-725) = -(fmod |(-725 : ℝ)| 360))
  ∧ initNumeric Kind.move (-725) 'd' = -5
  ∧ initNumeric Kind.move 725 'd' = 5 := by
  have h := c3_move_signed_magnitude (-725)
  exact ⟨⟨by norm_num, h.2.1 (by norm_num)⟩, h.2.2.1, h.2.2.2⟩

/-- Claim C5: deriving a `localEquatorial` from a `raDec` plus `sidereal`
source pair sets the hour angle to `sidereal_degrees - ra_degrees`
normalized by the hour-angle kind into `[0, 360)`, and copies the source
declination degree value; the result is closed-form arithmetic with no call
into `mapCoords`. -/
theorem c5_setupfromradec (inra indec insrtdeg : ℝ)
    (h1 : -90 ≤ indec) (h2 : indec < 90) :
    (setupfromradec inra indec insrtdeg).1 = fmod (insrtdeg - inra) 360
  ∧ 0 ≤ (setupfromradec inra indec insrtdeg).1
  ∧ (setupfromradec inra indec insrtdeg).1 < 360
  ∧ (setupfromradec inra indec insrtdeg).2 = indec := by
  have hh : (setupfromradec inra indec insrtdeg).1 = fmod (insrtdeg - inra) 360 := by
    show constrainK Kind.hour 'd' (constrainK Kind.hour 'd' (insrtdeg - inra))
        = fmod (insrtdeg - inra) 360
    rw [constrainK_hour_d, constrainK_hour_d]
    exact fmod_eq_self (by norm_num) (fmod_nonneg (by norm_num) _)
      (fmod_lt (by norm_num) _)
  have hd : (setupfromradec inra indec insrtdeg).2 = indec := by
    show constrainK Kind.dec 'd' (constrainK Kind.dec 'd' indec) = indec
    have e : constrainK Kind.dec 'd' indec = indec := by
      rw [constrainK_dec_d,
        fmod_eq_self (by norm_num) (by linarith) (by linarith)]
      ring
    rw [e, e]
  refine ⟨hh, ?_, ?_, hd⟩
  · rw [hh]
    exact fmod_nonneg (by norm_num) _
  · rw [hh]
    exact fmod_lt (by norm_num) _

theorem c5_setupfromradec_witness :
    ((-90 : ℝ) ≤ 45 ∧ (45 : ℝ) < 90)
  ∧ (setupfromradec 30 45 50).1 = 20
  ∧ (setupfromradec 30 45 50).2 = 45 := by
  have h := c5_setupfromradec 30 45 50 (by norm_num) (by norm_num)
  refine ⟨⟨by norm_num, by norm_num⟩, ?_, h.2.2.2⟩
  rw [h.1, show (50 : ℝ) - 30 = 20 by norm_num,
    fmod_eq_self (by norm_num) (by norm_num) (by norm_num)]

/-- Claim C8: a `twoCoords` constructor call with exactly one component
supplied and no derivation sources errors, a derivation that leaves a
component absent errors, and construction never completes with one
component present and the other absent. -/
theorem c8_partial_construction {σ : Type} (v1 v2 : Option ℝ) (srcs : Option σ)
    (setup : σ → Option ℝ × Option ℝ → Except PyErr (Option ℝ × Option ℝ)) :
    (srcs = none → ((v1 ≠ none ∧ v2 = none) ∨ (v1 = none ∧ v2 ≠ none)) →
      ∃ e, twoCoordsInit v1 v2 srcs setup = .error e)
  ∧ (∀ s r, srcs = some s → setup s (v1, v2) = .ok r →
      (r.1 = none ∨ r.2 = none) →
      ∃ e, twoCoordsInit v1 v2 srcs setup = .error e)
  ∧ (∀ p, twoCoordsInit v1 v2 srcs setup = .ok p →
      postSetupState v1 v2 srcs setup = .ok (some p.1, some p.2)) := by
  refine ⟨?_, ?_, ?_⟩
  · intro hs hone
    subst hs
    rcases hone with ⟨hv1, hv2⟩ | ⟨hv1, hv2⟩
    · subst hv2
      cases v1 <;> exact ⟨.nameError, rfl⟩
    · subst hv1
      cases v2 <;> exact ⟨.nameError, rfl⟩
  · intro s r hs hr hnone
    subst hs
    have hps : postSetupState v1 v2 (some s) setup = .ok r := hr
    rcases r with ⟨r1, r2⟩
    unfold twoCoordsInit
    rw [hps]
    rcases hnone with h | h
    · subst h
      cases r2 <;> exact ⟨.nameError, rfl⟩
    · subst h
      cases r1 <;> exact ⟨.nameError, rfl⟩
  · intro p hp
    unfold twoCoordsInit at hp
    rcases hps : postSetupState v1 v2 srcs setup with e | ⟨o1, o2⟩ <;> rw [hps] at hp
    · exact absurd hp (by simp)
    · rcases o1 with _ | a <;> rcases o2 with _ | b
      · exact absurd hp (by simp)
      · exact absurd hp (by simp)
      · exact absurd hp (by simp)
      · injection hp with h2
        rw [← h2]

theorem c8_partial_construction_witness :
    ∃ e, twoCoordsInit (σ := Unit) (some 1) none none (fun _ st => .ok st) = .error e :=
  (c8_partial_construction (some 1) none none (fun _ st => .ok st)).1 rfl
    (Or.inl ⟨by simp, rfl⟩)

/-- The parser `parseAngleString` either raises the modelled `ValueError` or returns a
value tagged with exactly the unit resolved by the marker scan. -/
lemma parseAngleString_unit (trails : List (Char × ℚ)) (s : List Char) (units : Char) :
    parseAngleString trails s units = .error PyErr.valueError
  ∨ ∃ q, parseAngleString trails s units = .ok (q, (splitUnit s units).2) := by
  unfold parseAngleString
  dsimp only
  split
  · left
    rfl
  · right
    exact ⟨_, rfl⟩

/-- Claim C7: for every kind, each unit-targeted setter invoked with a
string whose embedded unit marker resolves to a different unit than the
setter's raises `ValueError`. -/
theorem c7_setter_unit_mismatch (k : Kind) (st : AState) (s1 s2 s3 : List Char)
    (h1 : (splitUnit s1 'd').2 ≠ 'd')
    (h2 : (splitUnit s2 'r').2 ≠ 'r')
    (h3 : (splitUnit s3 'h').2 ≠ 'h') :
    degSetStr k st s1 = .error PyErr.valueError
  ∧ radSetStr k st s2 = .error PyErr.valueError
  ∧ hourSetStr k st s3 = .error PyErr.valueError := by
  refine ⟨?_, ?_, ?_⟩
  · unfold degSetStr cleanvalStr
    rcases parseAngleString_unit (trailsOf k) s1 'd' with h | ⟨q, h⟩ <;> rw [h]
    simp only []
    rw [if_pos h1]
  · unfold radSetStr cleanvalStr
    rcases parseAngleString_unit (trailsOf k) s2 'r' with h | ⟨q, h⟩ <;> rw [h]
    simp only []
    rw [if_pos h2]
  · unfold hourSetStr cleanvalStr
    rcases parseAngleString_unit (trailsOf k) s3 'h' with h | ⟨q, h⟩ <;> rw [h]
    simp only []
    rw [if_pos h3]

theorem c7_setter_unit_mismatch_witness :
    degSetStr Kind.lat ⟨some 0, none⟩ "2h".toList = .error PyErr.valueError
  ∧ radSetStr Kind.lat ⟨some 0, none⟩ "2h".toList = .error PyErr.valueError
  ∧ hourSetStr Kind.lat ⟨some 0, none⟩ "2d".toList = .error PyErr.valueError :=
  c7_setter_unit_mismatch Kind.lat ⟨some 0, none⟩ "2h".toList "2h".toList "2d".toList
    (by decide) (by decide) (by decide)

lemma constrainK_hour_h (x : ℝ) : constrainK Kind.hour 'h' x = fmod x 24 := by
  show fmod (x + 0) 24 - 0 = fmod x 24
  rw [add_zero, sub_zero]

lemma radToDeg_pi_div_two : radToDeg (π / 2) = 90 := by
  unfold radToDeg
  have hpi : π ≠ 0 := Real.pi_ne_zero
  field_simp
  ring

/-- Claim C6 counterexample: with the value held only in the radian cache
(`_dval is None`), an `hour` write whose normalized value equals the
angle's current degree value still fires the change notification and no
access notification, because the `hour` setter compares against the raw
`_dval` cache.  Here the state holds `π/2` radians (90 degrees) and the
written hour value 6 normalizes to 90 degrees. -/
theorem c6_counterexample :
    (degGet ⟨none, some (π / 2)⟩).1 = some (15 * constrainK Kind.hour 'h' 6)
  ∧ (hourSetNumS Kind.hour ⟨none, some (π / 2)⟩ 6).changes = 1
  ∧ (hourSetNumS Kind.hour ⟨none, some (π / 2)⟩ 6).accesses = 0 := by
  have hc : constrainK Kind.hour 'h' (6 : ℝ) = 6 := by
    rw [constrainK_hour_h]
    exact fmod_eq_self (by norm_num) (by norm_num) (by norm_num)
  refine ⟨?_, ?_, ?_⟩
  · show some (radToDeg (π / 2)) = some (15 * constrainK Kind.hour 'h' 6)
    rw [radToDeg_pi_div_two, hc]
    norm_num
  · unfold hourSetNumS
    rw [if_pos (by simp : (⟨none, some (π / 2)⟩ : AState).dval ≠ some (15 * constrainK Kind.hour 'h' 6))]
  · unfold hourSetNumS
    rw [if_pos (by simp : (⟨none, some (π / 2)⟩ : AState).dval ≠ some (15 * constrainK Kind.hour 'h' 6))]

/-- Claim C6 amended: the degree and radian setters behave as claimed in
every cache state — a write that normalizes to the current value fires no
change notification but at least one access notification, and a changing
write fires the change notification; the hour setter satisfies the same
property only when the degree cache is populated, because it compares the
new value against the raw `_dval` cache. -/
theorem c6_amended_change_notification (k : Kind) (s : AState) (v : ℝ) :
    ((some (constrainK k 'd' v) = (degGet s).1 →
        (degSetNumS k s v).changes = 0 ∧ 1 ≤ (degSetNumS k s v).accesses)
      ∧ (some (constrainK k 'd' v) ≠ (degGet s).1 → (degSetNumS k s v).changes = 1))
  ∧ ((some (constrainK k 'r' v) = (radGet s).1 →
        (radSetNumS k s v).changes = 0 ∧ 1 ≤ (radSetNumS k s v).accesses)
      ∧ (some (constrainK k 'r' v) ≠ (radGet s).1 → (radSetNumS k s v).changes = 1))
  ∧ (∀ d0, s.dval = some d0 →
      ((15 * constrainK k 'h' v = d0 →
          (hourSetNumS k s v).changes = 0 ∧ 1 ≤ (hourSetNumS k s v).accesses)
        ∧ (15 * constrainK k 'h' v ≠ d0 → (hourSetNumS k s v).changes = 1))) := by
  refine ⟨⟨?_, ?_⟩, ⟨?_, ?_⟩, ?_⟩
  · intro h
    unfold degSetNumS
    rw [if_neg (not_not_intro h)]
    exact ⟨rfl, by norm_num⟩
  · intro h
    unfold degSetNumS
    rw [if_pos h]
  · intro h
    unfold radSetNumS
    rw [if_neg (not_not_intro h)]
    exact ⟨rfl, by norm_num⟩
  · intro h
    unfold radSetNumS
    rw [if_pos h]
  · intro d0 hd0
    constructor
    · intro h
      unfold hourSetNumS
      rw [hd0, h, if_neg (not_not_intro rfl)]
      exact ⟨rfl, by norm_num⟩
    · intro h
      unfold hourSetNumS
      rw [hd0, if_pos (fun hc => h (Option.some_injective ℝ hc).symm)]

theorem c6_amended_change_notification_witness :
    (degSetNumS Kind.hour ⟨some 90, none⟩ 90).changes = 0
  ∧ 1 ≤ (degSetNumS Kind.hour ⟨some 90, none⟩ 90).accesses
  ∧ (hourSetNumS Kind.hour ⟨some 90, none⟩ 90).changes = 1 := by
  have h := c6_amended_change_notification Kind.hour ⟨some 90, none⟩ 90
  have e1 : constrainK Kind.hour 'd' (90 : ℝ) = 90 := by
    rw [constrainK_hour_d]
    exact fmod_eq_self (by norm_num) (by norm_num) (by norm_num)
  have heq : some (constrainK Kind.hour 'd' (90 : ℝ))
      = (degGet ⟨some 90, none⟩).1 := by
    rw [e1]
    rfl
  have e2 : (15 : ℝ) * constrainK Kind.hour 'h' 90 ≠ 90 := by
    rw [constrainK_hour_h, fmod_eval 3 (by norm_num) (by norm_num) (by norm_num)]
    norm_num
  exact ⟨(h.1.1 heq).1, (h.1.1 heq).2, (h.2.2 90 rfl).2 e2⟩

lemma origin_point_eval :
    xtOf 0 0 (π / 2) = 0 ∧ denOf 0 0 (π / 2) = 1
  ∧ cxOf 0 0 (π / 2) = 0 ∧ acosArg 0 0 (π / 2) = 0 := by
  have hxt : xtOf 0 0 (π / 2) = 0 := by
    unfold xtOf
    simp
  have hden : denOf 0 0 (π / 2) = 1 := by
    unfold denOf
    rw [hxt]
    simp
  have hcx : cxOf 0 0 (π / 2) = 0 := by
    unfold cxOf
    rw [hxt]
    simp
  have harg : acosArg 0 0 (π / 2) = 0 := by
    unfold acosArg
    rw [hcx, zero_div]
  exact ⟨hxt, hden, hcx, harg⟩

/-- Claim C1: whenever the primary division is defined
(`cos(y)·cos(xt) ≠ 0` — at an exactly-zero denominator the Python division
raises an uncaught `ZeroDivisionError` instead of returning),
`mapCoords(x, y, z)` returns
`xt = asin(sin x sin y + cos x cos y cos z)` paired with
`yt = acos((sin x − sin y sin xt)/(cos y cos xt))`, replaced by `2π − yt`
when `sin z > 0`; and exactly when the `acos` argument falls outside
`[-1, 1]` it instead returns `yt = atan(cy/cx)` with `π` added when
`cx < 0`, where `cy = −cos x cos y sin z` and `cx = sin x − sin y sin xt`. -/
theorem c1_mapCoords_branches (x y z : ℝ) (hden : denOf x y z ≠ 0) :
    ((-1 ≤ acosArg x y z ∧ acosArg x y z ≤ 1) →
      mapCoords x y z = .ok (xtOf x y z,
        if 0 < sin z then 2 * π - arccos (acosArg x y z)
        else arccos (acosArg x y z)))
  ∧ (¬(-1 ≤ acosArg x y z ∧ acosArg x y z ≤ 1) →
      mapCoords x y z = .ok (xtOf x y z,
        if cxOf x y z < 0 then arctan (cyOf x y z / cxOf x y z) + π
        else arctan (cyOf x y z / cxOf x y z))) := by
  constructor
  · intro hin
    unfold mapCoords
    rw [if_neg hden, if_pos hin]
  · intro hout
    have hcx : cxOf x y z ≠ 0 := by
      intro h0
      apply hout
      unfold acosArg
      rw [h0, zero_div]
      norm_num
    unfold mapCoords
    rw [if_neg hden, if_neg hout, if_neg hcx]

theorem c1_mapCoords_branches_witness :
    mapCoords 0 0 (π / 2) = .ok (0, 2 * π - π / 2) := by
  obtain ⟨hxt, hden, hcx, harg⟩ := origin_point_eval
  have h := (c1_mapCoords_branches 0 0 (π / 2)
      (by rw [hden]; norm_num)).1 (by rw [harg]; norm_num)
  rw [h, hxt, harg, Real.arccos_zero,
    if_pos (by rw [Real.sin_pi_div_two]; norm_num : (0 : ℝ) < sin (π / 2))]

/-- Claim C9 counterexample: no real triple makes the `acos` argument leave
`[-1, 1]` while `cx = sin(x) - sin(y)*sin(xt)` is zero — the `acos`
argument is `cx` over the denominator, so `cx = 0` forces it to `0`,
inside `[-1, 1]`.  The claimed `ZeroDivisionError` from the fallback is
therefore unreachable. -/
theorem c9_counterexample :
    ¬ ∃ x y z : ℝ, ¬(-1 ≤ acosArg x y z ∧ acosArg x y z ≤ 1)
      ∧ cxOf x y z = 0 ∧ mapCoords x y z = .error PyErr.zeroDivision := by
  rintro ⟨x, y, z, hout, hcx, _⟩
  apply hout
  unfold acosArg
  rw [hcx, zero_div]
  norm_num

/-- Claim C9 amended: the fallback division `cy/cx` is indeed unguarded in
the source, but no input reaches it with `cx = 0`: whenever `cx = 0` (and
the primary division is defined) the `acos` argument is `0 ∈ [-1, 1]`, so
the primary branch returns `acos 0 = π/2` (reflected when `sin z > 0`) and
the fallback division never executes, raising no `ZeroDivisionError`. -/
theorem c9_fallback_division_safe (x y z : ℝ) (hcx : cxOf x y z = 0)
    (hden : denOf x y z ≠ 0) :
    (-1 ≤ acosArg x y z ∧ acosArg x y z ≤ 1)
  ∧ mapCoords x y z = .ok (xtOf x y z,
      if 0 < sin z then 2 * π - π / 2 else π / 2) := by
  have harg : acosArg x y z = 0 := by
    unfold acosArg
    rw [hcx, zero_div]
  have hin : -1 ≤ acosArg x y z ∧ acosArg x y z ≤ 1 := by
    rw [harg]
    norm_num
  refine ⟨hin, ?_⟩
  unfold mapCoords
  rw [if_neg hden, if_pos hin]
  simp only [harg, Real.arccos_zero]

theorem c9_fallback_division_safe_witness :
    cxOf 0 0 (π / 2) = 0
  ∧ denOf 0 0 (π / 2) ≠ 0
  ∧ (-1 ≤ acosArg 0 0 (π / 2) ∧ acosArg 0 0 (π / 2) ≤ 1)
  ∧ mapCoords 0 0 (π / 2) = .ok (xtOf 0 0 (π / 2),
      if 0 < sin (π / 2) then 2 * π - π / 2 else π / 2) := by
  obtain ⟨hxt, hden, hcx, harg⟩ := origin_point_eval
  have hdne : denOf 0 0 (π / 2) ≠ 0 := by
    rw [hden]
    norm_num
  have h := c9_fallback_division_safe 0 0 (π / 2) hcx hdne
  exact ⟨hcx, hdne, h.1, h.2⟩

lemma sexa_parts_10_5125 {v : ℝ} (hv : |v| = 10.5125) :
    primOf v = 10 ∧ minsOf v = 30 ∧ secsOf v = 45 ∧ hundOf v = 0 := by
  have h1 : primOf v = 10 := by
    unfold primOf
    rw [hv, Int.floor_eq_iff]
    constructor <;> norm_num
  have hrest : restOf v = 0.5125 := by
    unfold restOf
    rw [hv, fmod_eval 10 (by norm_num) (by norm_num) (by norm_num)]
    norm_num
  have h2 : minsOf v = 30 := by
    unfold minsOf
    rw [hrest, show (0.5125 : ℝ) / (1 / 60) = 30.75 by norm_num, Int.floor_eq_iff]
    constructor <;> norm_num
  have hrest2 : rest2Of v = 0.0125 := by
    unfold rest2Of
    rw [hrest, fmod_eval 30 (by norm_num) (by norm_num) (by norm_num)]
    norm_num
  have h3 : secsOf v = 45 := by
    unfold secsOf
    rw [hrest2, show (0.0125 : ℝ) / (1 / 3600) = 45 by norm_num, Int.floor_eq_iff]
    constructor <;> norm_num
  have hfr : fracsOf v = 0 := by
    unfold fracsOf
    rw [hrest2, fmod_eval 45 (by norm_num) (by norm_num) (by norm_num)]
    norm_num
  have h4 : hundOf v = 0 := by
    unfold hundOf
    rw [hfr, show (0 : ℝ) * 360000 = 0 by norm_num]
    unfold pyRound
    rw [Int.floor_zero]
    rw [if_pos (by norm_num)]
  exact ⟨h1, h2, h3, h4⟩

lemma constrainK_lat_d_fix : constrainK Kind.lat 'd' (-10.5125 : ℝ) = -10.5125 := by
  rw [constrainK_lat_d, fmod_eval 0 (by norm_num) (by norm_num) (by norm_num)]
  norm_num

lemma constrainK_lat_d_fix_pos : constrainK Kind.lat 'd' (10.5125 : ℝ) = 10.5125 := by
  rw [constrainK_lat_d, fmod_eval 0 (by norm_num) (by norm_num) (by norm_num)]
  norm_num

/-- Claim C4: parsing `"10:30:45S"` as a latitude stores the degree value
`-(10 + 30/60 + 45/3600) = -10.5125` exactly, and the latitude kind's
default sexagesimal (multi-mode) template renders that value as the string
`"lat 10:30:45.00 S"`. -/
theorem c4_lat_parse_format_roundtrip :
    initStr Kind.lat "10:30:45S".toList 'd' = .ok (-10.5125)
  ∧ latFormatMulti (-10.5125) = "lat 10:30:45.00 S".toList := by
  constructor
  · have hp : parseAngleString (trailsOf Kind.lat) "10:30:45S".toList 'd'
        = .ok (-(841 / 80 : ℚ), 'd') := by
      with_unfolding_all rfl
    have hcast : ((-(841 / 80 : ℚ) : ℚ) : ℝ) = -10.5125 := by
      push_cast
      norm_num
    unfold initStr cleanvalStr
    rw [hp]
    dsimp only
    rw [if_neg (by decide : ¬ ('d' = 'r')), if_neg (by decide : ¬ ('d' = 'h')),
      hcast, constrainK_lat_d_fix, constrainK_lat_d_fix]
  · obtain ⟨h1, h2, h3, h4⟩ := sexa_parts_10_5125
      (v := (-10.5125 : ℝ)) (by rw [abs_of_neg (by norm_num)]; norm_num)
    unfold latFormatMulti
    rw [h1, h2, h3, h4,
      show posvOf (-10.5125 : ℝ) = -1 from by unfold posvOf; rw [if_neg (by norm_num)],
      show latTrailsign (-1 : ℝ) = ['S'] from by unfold latTrailsign; rw [if_neg (by norm_num)]]
    decide

/-- Claim C10: a parsed string carrying both a trailing sign letter and an
explicit leading `-` multiplies the two sign factors, so they cancel:
`latVal("-10:30:45S")` stores the positive value `+10.5125`, which formats
with the `N` (North) glyph. -/
theorem c10_double_sign_cancels :
    initStr Kind.lat "-10:30:45S".toList 'd' = .ok (10.5125)
  ∧ (0 : ℝ) < 10.5125
  ∧ latFormatMulti (10.5125) = "lat 10:30:45.00 N".toList := by
  refine ⟨?_, by norm_num, ?_⟩
  · have hp : parseAngleString (trailsOf Kind.lat) "-10:30:45S".toList 'd'
        = .ok ((841 / 80 : ℚ), 'd') := by
      with_unfolding_all rfl
    have hcast : (((841 / 80 : ℚ) : ℚ) : ℝ) = 10.5125 := by
      push_cast
      norm_num
    unfold initStr cleanvalStr
    rw [hp]
    dsimp only
    rw [if_neg (by decide : ¬ ('d' = 'r')), if_neg (by decide : ¬ ('d' = 'h')),
      hcast, constrainK_lat_d_fix_pos, constrainK_lat_d_fix_pos]
  · obtain ⟨h1, h2, h3, h4⟩ := sexa_parts_10_5125
      (v := (10.5125 : ℝ)) (by rw [abs_of_nonneg (by norm_num)])
    unfold latFormatMulti
    rw [h1, h2, h3, h4,
      show posvOf (10.5125 : ℝ) = 1 from by unfold posvOf; rw [if_pos (by norm_num)],
      show latTrailsign (1 : ℝ) = ['N'] from by unfold latTrailsign; rw [if_pos (by norm_num)]]
    decide
